import Mathlib

/-!
Verification of the juju repository excerpt: the RPC facade version picker
(`bestVersion`), the raft-lease bulk-apply facade (`ApplyLease`), the
charm-refresh resolution chain, and the model-migration export subsystem
(status-history trimming, export-configuration toggles, tolerant mode,
relation endpoints, secrets, volume-attachment plans).

Functions present in the source are translated directly; components whose
production code is only witnessed here by their tests are modelled from the
specification text, and each such definition says so in its doc comment.
-/

set_option maxHeartbeats 1000000

/-! ## Facade version table: bestVersion -/

/-- Embedding of `bestVersion` (apiserver facade version selection):
`best := 0; for version in versions { if version <= desired && version > best
{ best = version } }; return best`. -/
def bestVersion (desiredVersion : Int) (versions : List Int) : Int :=
  versions.foldl (fun best v => if v ≤ desiredVersion ∧ v > best then v else best) 0

/-! ## Raft-lease facade: ApplyLease -/

/-- An error returned by the raft collaborator's `ApplyLease`:
either the distinguished not-leader error or any other error. -/
inductive LeaseError where
  | notLeader (msg : String)
  | other (msg : String)
deriving DecidableEq, Repr

/-- Embedding of `apiservererrors.IsNotLeaderError`. -/
def isNotLeaderError : LeaseError → Bool
  | .notLeader _ => true
  | .other _ => false

/-- Embedding of `Facade.ApplyLease`.  The raft collaborator is modelled by
the list of outcomes its successive `ApplyLease(op.Command)` calls would
return, one per operation in the batch (`none` = nil error).  The result is
the `results` slice (a `none` entry is a zero `ErrorResult`) paired with the
number of operations actually attempted against the collaborator.  On a
not-leader error at index k the code fills indices k..end with that error
and breaks; on any other error it records it at index k and continues; the
facade's own returned error is always nil, which is why no error component
appears here. -/
def applyLease : List (Option LeaseError) → List (Option LeaseError) × Nat
  | [] => ([], 0)
  | none :: rest =>
      let r := applyLease rest
      (none :: r.1, r.2 + 1)
  | some e :: rest =>
      if isNotLeaderError e then
        (some e :: rest.map (fun _ => some e), 1)
      else
        let r := applyLease rest
        (some e :: r.1, r.2 + 1)

/-! ## Charm-refresh resolution chain -/

/-- Outcome of one candidate refresher's `Refresh()` call: a successful
charm id, the distinguished `ErrExhausted` sentinel, or a terminal error. -/
inductive RefreshOutcome (α : Type) where
  | success (id : α)
  | exhausted
  | failure (msg : String)
deriving DecidableEq, Repr

/-- One candidate in the refresh chain: whether `Allowed(cfg)` reports true,
and what its `Refresh()` returns when consulted. -/
structure RefresherCandidate (α : Type) where
  allowed : Bool
  refresh : RefreshOutcome α
deriving DecidableEq, Repr

/-- Result of running the whole chain. -/
inductive RefreshRunResult (α : Type) where
  | ok (id : α)
  | failed (msg : String)
deriving DecidableEq, Repr

/-- Modelled from the spec: the charm-refresh chain driver (`factory.Run`),
whose production code is absent from the excerpt (only its tests appear).
"a fixed, ordered list of candidate resolvers is consulted in order; each
candidate declares itself `Allowed` for the given config before being asked
to `Refresh`.  A resolver signals "not applicable, try the next" via a
distinguished "exhausted" outcome, which is NOT a terminal failure — the
chain continues to the next candidate.  Any other error is terminal and
aborts the chain.  If all candidates are exhausted, the chain fails with
"unable to refresh <ref>"."  The second component is the trace of candidate
indices consulted, in order. -/
def runRefreshersFrom (ref : String) (i : Nat) :
    List (RefresherCandidate α) → RefreshRunResult α × List Nat
  | [] => (.failed ("unable to refresh \x22" ++ ref ++ "\x22"), [])
  | c :: rest =>
      if c.allowed then
        match c.refresh with
        | .success id => (.ok id, [i])
        | .exhausted =>
            let r := runRefreshersFrom ref (i + 1) rest
            (r.1, i :: r.2)
        | .failure m => (.failed m, [i])
      else
        let r := runRefreshersFrom ref (i + 1) rest
        (r.1, i :: r.2)

/-- The chain driver started at the head of the registration list. -/
def runRefreshers (ref : String) (cs : List (RefresherCandidate α)) :
    RefreshRunResult α × List Nat :=
  runRefreshersFrom ref 0 cs

/-- The value the facade call returns to the RPC layer: the results slice,
the attempted-call count, and the facade's own error, which the source
returns as a literal `nil` (`return params.ErrorResults{...}, nil`). -/
def applyLeaseFacade (outcomes : List (Option LeaseError)) :
    (List (Option LeaseError) × Nat) × Option LeaseError :=
  (applyLease outcomes, none)

/-! ## Theorems: bestVersion (C10) -/

/-- The accumulator can only grow, the result is the accumulator or a list
element that passed the filter, and every list element that is ≤ desired is
≤ the result. -/
theorem bestVersion_foldl_spec (d : Int) (vs : List Int) (b : Int) :
    b ≤ vs.foldl (fun best v => if v ≤ d ∧ v > best then v else best) b ∧
    (vs.foldl (fun best v => if v ≤ d ∧ v > best then v else best) b = b ∨
      (vs.foldl (fun best v => if v ≤ d ∧ v > best then v else best) b ∈ vs ∧
        vs.foldl (fun best v => if v ≤ d ∧ v > best then v else best) b ≤ d ∧
        b < vs.foldl (fun best v => if v ≤ d ∧ v > best then v else best) b)) ∧
    (∀ v ∈ vs, v ≤ d → v ≤ vs.foldl (fun best v => if v ≤ d ∧ v > best then v else best) b) := by
  induction vs generalizing b with
  | nil => simp
  | cons x xs ih =>
      simp only [List.foldl_cons, List.mem_cons]
      by_cases hx : x ≤ d ∧ x > b
      · have h := ih x
        simp only [if_pos hx]
        refine ⟨le_trans (le_of_lt hx.2) h.1, ?_, ?_⟩
        · rcases h.2.1 with h1 | h1
          · refine Or.inr ⟨Or.inl h1, ?_, ?_⟩
            · rw [h1]; exact hx.1
            · rw [h1]; exact hx.2
          · exact Or.inr ⟨Or.inr h1.1, h1.2.1, lt_trans hx.2 h1.2.2⟩
        · intro v hv hvd
          rcases hv with rfl | hv
          · exact h.1
          · exact h.2.2 v hv hvd
      · have h := ih b
        simp only [if_neg hx]
        refine ⟨h.1, ?_, ?_⟩
        · rcases h.2.1 with h1 | h1
          · exact Or.inl h1
          · exact Or.inr ⟨Or.inr h1.1, h1.2⟩
        · intro v hv hvd
          rcases hv with rfl | hv
          · rcases not_and_or.mp hx with hc | hc
            · exact absurd hvd hc
            · exact le_trans (not_lt.mp hc) h.1
          · exact h.2.2 v hv hvd

/-- C10: `bestVersion(d, vs)` returns the largest element of `vs` that is
both ≤ d and > 0, and returns 0 when no such element exists. -/
theorem bestVersion_correct (d : Int) (vs : List Int) :
    ((∀ v ∈ vs, ¬(v ≤ d ∧ 0 < v)) → bestVersion d vs = 0) ∧
    (∀ v ∈ vs, v ≤ d → 0 < v →
      bestVersion d vs ∈ vs ∧ bestVersion d vs ≤ d ∧ 0 < bestVersion d vs ∧
        v ≤ bestVersion d vs) := by
  have h := bestVersion_foldl_spec d vs 0
  unfold bestVersion
  constructor
  · intro hnone
    rcases h.2.1 with h1 | h1
    · exact h1
    · exact absurd ⟨h1.2.1, h1.2.2⟩ (hnone _ h1.1)
  · intro v hv hvd hvpos
    have hub := h.2.2 v hv hvd
    have hpos : (0:Int) < vs.foldl (fun best v => if v ≤ d ∧ v > best then v else best) 0 :=
      lt_of_lt_of_le hvpos hub
    rcases h.2.1 with h1 | h1
    · rw [h1] at hpos; exact absurd hpos (lt_irrefl 0)
    · exact ⟨h1.1, h1.2.1, hpos, hub⟩

/-- Witness for C10 at a concrete input: vs = [1, 6, 3], d = 5; the element
3 is ≤ 5 and > 0, and `bestVersion` returns an element that dominates it. -/
theorem bestVersion_correct_witness :
    bestVersion 5 [1, 6, 3] ∈ [(1:Int), 6, 3] ∧ bestVersion 5 [1, 6, 3] ≤ 5 ∧
      (0:Int) < bestVersion 5 [1, 6, 3] ∧ (3:Int) ≤ bestVersion 5 [1, 6, 3] :=
  (bestVersion_correct 5 [1, 6, 3]).2 3 (by decide) (by decide) (by decide)

/-! ## Theorems: ApplyLease (C6, C7) -/

/-- The results slice always has one entry per operation in the batch. -/
theorem applyLease_length (outcomes : List (Option LeaseError)) :
    (applyLease outcomes).1.length = outcomes.length := by
  induction outcomes with
  | nil => rfl
  | cons o rest ih =>
      cases o with
      | none => simpa [applyLease] using ih
      | some e =>
          by_cases h : isNotLeaderError e = true
          · simp [applyLease, h]
          · simp only [applyLease, Bool.not_eq_true] at h ⊢
            simp [h, ih]

/-- C6: if the first not-leader error of the batch occurs at operation k,
then the result at index k and at every subsequent index is that same
not-leader error, exactly the operations 0..k are attempted (none after k),
and the facade itself returns a nil error. -/
theorem applyLease_notLeader_stops (outcomes : List (Option LeaseError))
    (k : Nat) (e : LeaseError)
    (hk : outcomes.get? k = some (some e))
    (hnl : isNotLeaderError e = true)
    (hbefore : ∀ j, j < k → ∀ e', outcomes.get? j = some (some e') →
      isNotLeaderError e' = false) :
    (∀ j, k ≤ j → j < outcomes.length →
      (applyLease outcomes).1.get? j = some (some e)) ∧
    (applyLease outcomes).2 = k + 1 ∧
    (applyLeaseFacade outcomes).2 = none := by
  induction outcomes generalizing k with
  | nil => simp at hk
  | cons o rest ih =>
      cases k with
      | zero =>
          simp only [List.get?] at hk
          cases hk
          refine ⟨?_, by simp [applyLease, hnl], rfl⟩
          intro j _ hjlen
          cases j with
          | zero => simp [applyLease, hnl]
          | succ j' =>
              simp only [List.length_cons, Nat.succ_lt_succ_iff] at hjlen
              simp [applyLease, hnl, List.getElem?_replicate, hjlen]
      | succ k' =>
          simp only [List.get?] at hk
          have hrest := ih k' hk
            (fun j hj e' hje' => hbefore (j + 1) (Nat.succ_lt_succ hj) e' hje')
          have hhead : ∀ e', o = some e' → isNotLeaderError e' = false := by
            intro e' he'
            exact hbefore 0 (Nat.succ_pos k') e' (by simp [he'])
          cases o with
          | none =>
              refine ⟨?_, ?_, rfl⟩
              · intro j hkj hjlen
                cases j with
                | zero => omega
                | succ j' =>
                    simp only [List.length_cons, Nat.succ_lt_succ_iff] at hjlen
                    simpa [applyLease] using hrest.1 j' (Nat.le_of_succ_le_succ hkj) hjlen
              · simp [applyLease, hrest.2.1]
          | some e' =>
              have hf : isNotLeaderError e' = false := hhead e' rfl
              refine ⟨?_, ?_, rfl⟩
              · intro j hkj hjlen
                cases j with
                | zero => omega
                | succ j' =>
                    simp only [List.length_cons, Nat.succ_lt_succ_iff] at hjlen
                    simpa [applyLease, hf] using hrest.1 j' (Nat.le_of_succ_le_succ hkj) hjlen
              · simp [applyLease, hf, hrest.2.1]

/-- Witness for C6 at the claim's own instance: three operations where
operation 2 (index 1) fails with not-leader; the results at indices 1 and 2
are that error, exactly 2 operations were attempted, and the facade error
is nil. -/
theorem applyLease_notLeader_stops_witness :
    (applyLease [none, some (.notLeader "m"), none]).1.get? 1 =
        some (some (.notLeader "m")) ∧
      (applyLease [none, some (.notLeader "m"), none]).1.get? 2 =
        some (some (.notLeader "m")) ∧
      (applyLease [none, some (.notLeader "m"), none]).2 = 2 ∧
      (applyLeaseFacade [none, some (.notLeader "m"), none]).2 = none := by
  have h := applyLease_notLeader_stops [none, some (.notLeader "m"), none] 1
    (.notLeader "m") rfl rfl
    (by
      intro j hj e' hje'
      match j, hj with
      | 0, _ => simp at hje')
  exact ⟨h.1 1 (by omega) (by simp), h.1 2 (by omega) (by simp), h.2.1, h.2.2⟩

/-- C7 counterexample: with a batch of two operations whose first fails
with an error that is not the not-leader error, the claim says the batch
stops there (only one operation attempted) and the same error is
propagated to index 1; the code instead attempts both operations and
leaves index 1 nil. -/
theorem applyLease_terminal_counterexample :
    ¬((applyLease [some (.other "boom"), none]).2 = 1 ∧
      (applyLease [some (.other "boom"), none]).1.get? 1 =
        some (some (.other "boom"))) := by
  intro h
  have h2 := h.1
  simp [applyLease, isNotLeaderError] at h2

/-- C7 amended: only the distinguished not-leader error stops the batch.
An error of any other kind is recorded at its own index and processing
continues; in particular a batch containing no not-leader outcome attempts
every operation and records each operation's own outcome at its own
index. -/
theorem applyLease_nonNotLeader_continues (outcomes : List (Option LeaseError))
    (h : ∀ o ∈ outcomes, ∀ e, o = some e → isNotLeaderError e = false) :
    applyLease outcomes = (outcomes, outcomes.length) := by
  induction outcomes with
  | nil => rfl
  | cons o rest ih =>
      have hrest := ih (fun o' ho' e he => h o' (List.mem_cons_of_mem _ ho') e he)
      cases o with
      | none => simp [applyLease, hrest]
      | some e =>
          have hf : isNotLeaderError e = false := h (some e) (List.mem_cons_self _ _) e rfl
          simp [applyLease, hf, hrest]

/-- Witness for C7's amended statement: a two-operation batch whose first
operation fails with an other-than-not-leader error attempts both
operations and records the error at index 0 only. -/
theorem applyLease_nonNotLeader_continues_witness :
    applyLease [some (.other "boom"), none] = ([some (.other "boom"), none], 2) :=
  applyLease_nonNotLeader_continues [some (.other "boom"), none]
    (by
      intro o ho e he
      simp only [List.mem_cons, List.not_mem_nil, or_false] at ho
      rcases ho with rfl | rfl
      · injection he with h
        subst h
        rfl
      · simp at he)

/-! ## Theorems: charm-refresh chain (C8) -/

/-- C8: with candidate 1 not allowed, candidate 2 allowed but exhausted and
candidate 3 allowed and successful, the chain returns candidate 3's result
with no error, and the consultation trace is exactly [0, 1, 2]: candidates
1 and 2 were each consulted exactly once, in registration order. -/
theorem runRefreshers_chain_scenario {α : Type} (ref : String)
    (r1 : RefreshOutcome α) (id : α) :
    runRefreshers ref
        [⟨false, r1⟩, ⟨true, .exhausted⟩, ⟨true, .success id⟩] =
      (.ok id, [0, 1, 2]) := by
  simp [runRefreshers, runRefreshersFrom]

/-! ## Migration export subsystem

The production export engine (`state.Export` / `state.ExportPartial`) is not
part of the excerpt; only its test suite is.  The definitions below are
modelled from the specification text and say so individually. -/

/-- An entry in an entity's status-transition history:
{value, message, structured data, timestamp}. -/
structure StatusEntry where
  value : String
  message : String
  timestamp : Nat
deriving DecidableEq, Repr

/-- The fixed status-history cap (20 entries in this design). -/
def statusHistoryCap : Nat := 20

/-- Modelled from the spec: the Status History Trimmer, whose production
code is absent from the excerpt.  "given an entity's full status-transition
log (time-ordered, oldest first) and a fixed cap (20 entries in this
design), return the most recent `cap` entries in reverse-chronological
order (most recent first)". -/
def trimStatusHistory (history : List StatusEntry) : List StatusEntry :=
  history.reverse.take statusHistoryCap

/-- A block of opaque settings: a keyed attribute map. -/
abbrev SettingsMap := List (String × String)

/-- Source-side machine: instance data is attached only once provisioned
and the agent-tools record may be absent. -/
structure SrcMachine where
  machineId : String
  instanceData : Option String
  agentTools : Option String
deriving DecidableEq, Repr

/-- Source-side unit: the agent-tools record may be absent. -/
structure SrcUnit where
  unitName : String
  agentTools : Option String
deriving DecidableEq, Repr

/-- One application endpoint of a relation: for every unit that has entered
relation scope, the unit's name and its relation-scope settings document,
which may be missing from the backing store. -/
structure SrcEndpoint where
  applicationName : String
  endpointName : String
  unitsInScope : List (String × Option SettingsMap)
deriving DecidableEq, Repr

/-- Source-side relation: a numeric id and its endpoints. -/
structure SrcRelation where
  relationId : Nat
  endpoints : List SrcEndpoint
deriving DecidableEq, Repr

/-- The source model handed to the export pass. -/
structure SourceModel where
  machines : List SrcMachine
  units : List SrcUnit
  relations : List SrcRelation
  actions : List String
  operations : List String
  linkLayerDevices : List String
  ipAddresses : List String
  sshHostKeys : List String
  annotations : List (String × String)
  cloudImageMetadata : List String
  credentials : List String
  settings : List SettingsMap
  statusHistory : List StatusEntry
  applicationOffers : List String
  offerConnections : List String
deriving DecidableEq, Repr

/-- Modelled from the spec: the Export Configuration (`state.ExportConfig`),
"a declarative set of independent toggles that each exclude one category of
entity or relationship from the snapshot, plus a mode that tolerates
otherwise-fatal missing data" (`IgnoreIncompleteModel`).  The toggles are
the closed set enumerated in the spec: actions, annotations,
cloud-image-metadata, credentials, IP addresses, settings (relation/app
config), SSH host keys, status history, link-layer devices, unit agent
binaries, machine agent binaries, relation scope data, instance data,
application offers and offer connections. -/
structure ExportConfig where
  ignoreIncompleteModel : Bool
  skipActions : Bool
  skipAnnotations : Bool
  skipCloudImageMetadata : Bool
  skipCredentials : Bool
  skipIPAddresses : Bool
  skipSettings : Bool
  skipSSHHostKeys : Bool
  skipStatusHistory : Bool
  skipLinkLayerDevices : Bool
  skipUnitAgentBinaries : Bool
  skipMachineAgentBinaries : Bool
  skipRelationData : Bool
  skipInstanceData : Bool
  skipApplicationOffers : Bool
  skipOfferConnections : Bool
deriving DecidableEq, Repr

/-- The configuration with every toggle enabled (nothing skipped) and
tolerant mode off: this is what plain `Export()` uses. -/
def allEnabledConfig : ExportConfig :=
  ⟨false, false, false, false, false, false, false, false,
   false, false, false, false, false, false, false, false⟩

/-- The configuration exercising only the cross-cutting tolerant flag. -/
def tolerantConfig : ExportConfig :=
  { allEnabledConfig with ignoreIncompleteModel := true }

/-- Exported machine: `Instance()` and `Tools()` are nil when omitted. -/
structure ExpMachine where
  machineId : String
  instanceData : Option String
  agentTools : Option String
deriving DecidableEq, Repr

/-- Exported unit. -/
structure ExpUnit where
  unitName : String
  agentTools : Option String
deriving DecidableEq, Repr

/-- Exported relation endpoint: `UnitCount()` and the per-unit settings,
keyed by unit name. -/
structure ExpEndpoint where
  applicationName : String
  endpointName : String
  unitCount : Nat
  unitSettings : List (String × SettingsMap)
deriving DecidableEq, Repr

/-- Exported relation. -/
structure ExpRelation where
  relationId : Nat
  endpoints : List ExpEndpoint
deriving DecidableEq, Repr

/-- The exported snapshot, one accessor per entity kind. -/
structure Snapshot where
  machines : List ExpMachine
  units : List ExpUnit
  relations : List ExpRelation
  actions : List String
  operations : List String
  linkLayerDevices : List String
  ipAddresses : List String
  sshHostKeys : List String
  annotations : List (String × String)
  cloudImageMetadata : List String
  credentials : List String
  settings : List SettingsMap
  statusHistory : List StatusEntry
  applicationOffers : List String
  offerConnections : List String
deriving DecidableEq, Repr

/-- Modelled from the spec: export of one machine.  A missing instance-data
or agent-tools record is a hard failure unless the category is skipped or
tolerant mode downgrades it to a silent omission. -/
def exportMachine (cfg : ExportConfig) (m : SrcMachine) : Except String ExpMachine := do
  let inst ←
    if cfg.skipInstanceData then pure none
    else match m.instanceData with
      | some i => pure (some i)
      | none =>
          if cfg.ignoreIncompleteModel then pure none
          else Except.error ("machine " ++ m.machineId ++ ": missing instance data")
  let tls ←
    if cfg.skipMachineAgentBinaries then pure none
    else match m.agentTools with
      | some t => pure (some t)
      | none =>
          if cfg.ignoreIncompleteModel then pure none
          else Except.error ("machine " ++ m.machineId ++ ": missing agent binaries")
  pure ⟨m.machineId, inst, tls⟩

/-- Modelled from the spec: export of one unit (agent-tools handling as for
machines). -/
def exportUnit (cfg : ExportConfig) (u : SrcUnit) : Except String ExpUnit := do
  let tls ←
    if cfg.skipUnitAgentBinaries then pure none
    else match u.agentTools with
      | some t => pure (some t)
      | none =>
          if cfg.ignoreIncompleteModel then pure none
          else Except.error ("unit " ++ u.unitName ++ ": missing agent binaries")
  pure ⟨u.unitName, tls⟩

/-- Modelled from the spec: reading the relation-scope settings of the
units that entered scope on one endpoint.  A missing settings document is
fatal unless tolerant mode downgrades it to a silent omission. -/
def exportScopeSettings (cfg : ExportConfig) :
    List (String × Option SettingsMap) → Except String (List (String × SettingsMap))
  | [] => pure []
  | (u, some s) :: rest => do
      let r ← exportScopeSettings cfg rest
      pure ((u, s) :: r)
  | (u, none) :: rest =>
      if cfg.ignoreIncompleteModel then exportScopeSettings cfg rest
      else Except.error ("missing relation scope for unit " ++ u)

/-- Modelled from the spec: export of one relation endpoint.  The endpoint
unit count equals the number of units that have entered relation scope; the
per-unit settings are dropped wholesale when the relation-data toggle is
off. -/
def exportEndpoint (cfg : ExportConfig) (ep : SrcEndpoint) : Except String ExpEndpoint := do
  let settings ←
    if cfg.skipRelationData then pure []
    else exportScopeSettings cfg ep.unitsInScope
  pure ⟨ep.applicationName, ep.endpointName, ep.unitsInScope.length, settings⟩

/-- Modelled from the spec: export of one relation. -/
def exportRelation (cfg : ExportConfig) (r : SrcRelation) : Except String ExpRelation := do
  let eps ← r.endpoints.mapM (exportEndpoint cfg)
  pure ⟨r.relationId, eps⟩

/-- Modelled from the spec: the snapshot assembler (`state.ExportPartial`;
`state.Export` is the same with `allEnabledConfig`).  Every reader applies
its configuration toggle first; a disabled category is omitted silently. -/
def exportModel (cfg : ExportConfig) (s : SourceModel) : Except String Snapshot := do
  let machines ← s.machines.mapM (exportMachine cfg)
  let units ← s.units.mapM (exportUnit cfg)
  let relations ← s.relations.mapM (exportRelation cfg)
  pure ⟨machines, units, relations,
    if cfg.skipActions then [] else s.actions,
    if cfg.skipActions then [] else s.operations,
    if cfg.skipLinkLayerDevices then [] else s.linkLayerDevices,
    if cfg.skipIPAddresses then [] else s.ipAddresses,
    if cfg.skipSSHHostKeys then [] else s.sshHostKeys,
    if cfg.skipAnnotations then [] else s.annotations,
    if cfg.skipCloudImageMetadata then [] else s.cloudImageMetadata,
    if cfg.skipCredentials then [] else s.credentials,
    if cfg.skipSettings then [] else s.settings,
    if cfg.skipStatusHistory then [] else trimStatusHistory s.statusHistory,
    if cfg.skipApplicationOffers then [] else s.applicationOffers,
    if cfg.skipOfferConnections then [] else s.offerConnections⟩

/-- The toggled categories of the export configuration: the closed set of
the spec, one category per toggle. -/
inductive ExportCategory where
  | actions
  | annotations
  | cloudImageMetadata
  | credentials
  | ipAddresses
  | settings
  | sshHostKeys
  | statusHistory
  | linkLayerDevices
  | unitAgentBinaries
  | machineAgentBinaries
  | relationData
  | instanceData
  | applicationOffers
  | offerConnections
deriving DecidableEq, Repr

/-- The configuration in which exactly one toggle is disabled (its category
skipped) and everything else is exported in full. -/
def disableOnly : ExportCategory → ExportConfig
  | .actions => { allEnabledConfig with skipActions := true }
  | .annotations => { allEnabledConfig with skipAnnotations := true }
  | .cloudImageMetadata => { allEnabledConfig with skipCloudImageMetadata := true }
  | .credentials => { allEnabledConfig with skipCredentials := true }
  | .ipAddresses => { allEnabledConfig with skipIPAddresses := true }
  | .settings => { allEnabledConfig with skipSettings := true }
  | .sshHostKeys => { allEnabledConfig with skipSSHHostKeys := true }
  | .statusHistory => { allEnabledConfig with skipStatusHistory := true }
  | .linkLayerDevices => { allEnabledConfig with skipLinkLayerDevices := true }
  | .unitAgentBinaries => { allEnabledConfig with skipUnitAgentBinaries := true }
  | .machineAgentBinaries => { allEnabledConfig with skipMachineAgentBinaries := true }
  | .relationData => { allEnabledConfig with skipRelationData := true }
  | .instanceData => { allEnabledConfig with skipInstanceData := true }
  | .applicationOffers => { allEnabledConfig with skipApplicationOffers := true }
  | .offerConnections => { allEnabledConfig with skipOfferConnections := true }

/-- How many exported entries a snapshot holds in a given category. -/
def categoryCount (snap : Snapshot) : ExportCategory → Nat
  | .actions => snap.actions.length + snap.operations.length
  | .annotations => snap.annotations.length
  | .cloudImageMetadata => snap.cloudImageMetadata.length
  | .credentials => snap.credentials.length
  | .ipAddresses => snap.ipAddresses.length
  | .settings => snap.settings.length
  | .sshHostKeys => snap.sshHostKeys.length
  | .statusHistory => snap.statusHistory.length
  | .linkLayerDevices => snap.linkLayerDevices.length
  | .unitAgentBinaries => (snap.units.filter (fun u => u.agentTools.isSome)).length
  | .machineAgentBinaries => (snap.machines.filter (fun m => m.agentTools.isSome)).length
  | .relationData =>
      (snap.relations.map (fun r =>
        (r.endpoints.map (fun ep => ep.unitSettings.length)).sum)).sum
  | .instanceData => (snap.machines.filter (fun m => m.instanceData.isSome)).length
  | .applicationOffers => snap.applicationOffers.length
  | .offerConnections => snap.offerConnections.length

/-- A source model with no missing data anywhere: every machine has
instance data and agent tools, every unit has agent tools, and every
in-scope unit of every relation endpoint has a settings document. -/
def SourceModel.complete (s : SourceModel) : Bool :=
  s.machines.all (fun m => m.instanceData.isSome && m.agentTools.isSome) &&
  s.units.all (fun u => u.agentTools.isSome) &&
  s.relations.all (fun r =>
    r.endpoints.all (fun ep => ep.unitsInScope.all (fun us => us.2.isSome)))

/-- The total projection the export computes whenever it does not fail:
skipped fields become empty, present data is copied, missing tolerated
data is omitted. -/
def pureExportMachine (cfg : ExportConfig) (m : SrcMachine) : ExpMachine :=
  ⟨m.machineId,
    if cfg.skipInstanceData then none else m.instanceData,
    if cfg.skipMachineAgentBinaries then none else m.agentTools⟩

/-- Total projection of one unit. -/
def pureExportUnit (cfg : ExportConfig) (u : SrcUnit) : ExpUnit :=
  ⟨u.unitName, if cfg.skipUnitAgentBinaries then none else u.agentTools⟩

/-- Total projection of one endpoint: present settings documents survive,
missing ones are omitted. -/
def pureExportEndpoint (cfg : ExportConfig) (ep : SrcEndpoint) : ExpEndpoint :=
  ⟨ep.applicationName, ep.endpointName, ep.unitsInScope.length,
    if cfg.skipRelationData then []
    else ep.unitsInScope.filterMap (fun us => us.2.map (fun s => (us.1, s)))⟩

/-- Total projection of one relation. -/
def pureExportRelation (cfg : ExportConfig) (r : SrcRelation) : ExpRelation :=
  ⟨r.relationId, r.endpoints.map (pureExportEndpoint cfg)⟩

/-- Total projection of the whole snapshot. -/
def pureExport (cfg : ExportConfig) (s : SourceModel) : Snapshot :=
  ⟨s.machines.map (pureExportMachine cfg),
    s.units.map (pureExportUnit cfg),
    s.relations.map (pureExportRelation cfg),
    if cfg.skipActions then [] else s.actions,
    if cfg.skipActions then [] else s.operations,
    if cfg.skipLinkLayerDevices then [] else s.linkLayerDevices,
    if cfg.skipIPAddresses then [] else s.ipAddresses,
    if cfg.skipSSHHostKeys then [] else s.sshHostKeys,
    if cfg.skipAnnotations then [] else s.annotations,
    if cfg.skipCloudImageMetadata then [] else s.cloudImageMetadata,
    if cfg.skipCredentials then [] else s.credentials,
    if cfg.skipSettings then [] else s.settings,
    if cfg.skipStatusHistory then [] else trimStatusHistory s.statusHistory,
    if cfg.skipApplicationOffers then [] else s.applicationOffers,
    if cfg.skipOfferConnections then [] else s.offerConnections⟩

/-! ## Export lemmas -/

/-- `mapM` over `Except` succeeds pointwise. -/
theorem mapM_ok_of_forall {β γ : Type} (f : β → Except String γ) (g : β → γ)
    (l : List β) (h : ∀ x ∈ l, f x = .ok (g x)) :
    l.mapM f = .ok (l.map g) := by
  induction l with
  | nil => rfl
  | cons x xs ih =>
      rw [List.mapM_cons, h x (List.mem_cons_self x xs),
        ih (fun y hy => h y (List.mem_cons_of_mem x hy))]
      rfl

/-- `pure` in the `Except` monad is `Except.ok`. -/
theorem except_pure_eq_ok {ε σ : Type} (x : σ) : (pure x : Except ε σ) = Except.ok x := rfl

/-- Binding a successful `Except` computation applies the continuation. -/
theorem except_bind_ok {ε σ τ : Type} (a : σ) (f : σ → Except ε τ) :
    (Except.ok a >>= f : Except ε τ) = f a := rfl

/-- Machine export succeeds in tolerant mode or on complete data, and
computes the pure projection. -/
theorem exportMachine_ok (cfg : ExportConfig) (m : SrcMachine)
    (h : cfg.ignoreIncompleteModel = true ∨
      (m.instanceData.isSome = true ∧ m.agentTools.isSome = true)) :
    exportMachine cfg m = .ok (pureExportMachine cfg m) := by
  rcases h with h | ⟨h1, h2⟩
  · cases hsi : cfg.skipInstanceData <;> cases hsm : cfg.skipMachineAgentBinaries <;>
      cases hinst : m.instanceData <;> cases htools : m.agentTools <;>
        simp [exportMachine, pureExportMachine, h, hsi, hsm, hinst, htools, Except.bind, except_pure_eq_ok, except_bind_ok]
  · obtain ⟨i, hi⟩ := Option.isSome_iff_exists.mp h1
    obtain ⟨t, ht⟩ := Option.isSome_iff_exists.mp h2
    cases hsi : cfg.skipInstanceData <;> cases hsm : cfg.skipMachineAgentBinaries <;>
      simp [exportMachine, pureExportMachine, hsi, hsm, hi, ht, Except.bind, except_pure_eq_ok, except_bind_ok]

/-- Unit export succeeds in tolerant mode or on complete data. -/
theorem exportUnit_ok (cfg : ExportConfig) (u : SrcUnit)
    (h : cfg.ignoreIncompleteModel = true ∨ u.agentTools.isSome = true) :
    exportUnit cfg u = .ok (pureExportUnit cfg u) := by
  rcases h with h | h
  · cases hsu : cfg.skipUnitAgentBinaries <;> cases htools : u.agentTools <;>
      simp [exportUnit, pureExportUnit, h, hsu, htools, Except.bind, except_pure_eq_ok, except_bind_ok]
  · obtain ⟨t, ht⟩ := Option.isSome_iff_exists.mp h
    cases hsu : cfg.skipUnitAgentBinaries <;>
      simp [exportUnit, pureExportUnit, hsu, ht, Except.bind, except_pure_eq_ok, except_bind_ok]

/-- Scope-settings export succeeds in tolerant mode or when every in-scope
unit has a settings document, and omits exactly the missing documents. -/
theorem exportScopeSettings_ok (cfg : ExportConfig)
    (l : List (String × Option SettingsMap))
    (h : cfg.ignoreIncompleteModel = true ∨ ∀ us ∈ l, us.2.isSome = true) :
    exportScopeSettings cfg l =
      .ok (l.filterMap (fun us => us.2.map (fun s => (us.1, s)))) := by
  induction l with
  | nil => rfl
  | cons x rest ih =>
      have hrest : cfg.ignoreIncompleteModel = true ∨ ∀ us ∈ rest, us.2.isSome = true := by
        rcases h with h | h
        · exact Or.inl h
        · exact Or.inr (fun us hus => h us (List.mem_cons_of_mem x hus))
      obtain ⟨u, os⟩ := x
      cases os with
      | some s =>
          rw [show exportScopeSettings cfg ((u, some s) :: rest) =
              (do
                let r ← exportScopeSettings cfg rest
                pure ((u, s) :: r)) from rfl,
            ih hrest]
          rfl
      | none =>
          have hig : cfg.ignoreIncompleteModel = true := by
            rcases h with h | h
            · exact h
            · have := h (u, none) (List.mem_cons_self _ _)
              simp at this
          rw [show exportScopeSettings cfg ((u, none) :: rest) =
              (if cfg.ignoreIncompleteModel then exportScopeSettings cfg rest
               else Except.error ("missing relation scope for unit " ++ u)) from rfl,
            if_pos hig, ih hrest]
          rfl

/-- Endpoint export succeeds in tolerant mode or on complete data. -/
theorem exportEndpoint_ok (cfg : ExportConfig) (ep : SrcEndpoint)
    (h : cfg.ignoreIncompleteModel = true ∨
      ∀ us ∈ ep.unitsInScope, us.2.isSome = true) :
    exportEndpoint cfg ep = .ok (pureExportEndpoint cfg ep) := by
  cases hsr : cfg.skipRelationData with
  | true => simp [exportEndpoint, pureExportEndpoint, hsr, Except.bind, except_pure_eq_ok, except_bind_ok]
  | false =>
      rw [show exportEndpoint cfg ep =
          (do
            let settings ←
              if cfg.skipRelationData then pure []
              else exportScopeSettings cfg ep.unitsInScope
            pure (⟨ep.applicationName, ep.endpointName, ep.unitsInScope.length,
              settings⟩ : ExpEndpoint)) from rfl,
        hsr]
      simp only [Bool.false_eq_true, if_false]
      rw [exportScopeSettings_ok cfg ep.unitsInScope h]
      simp [pureExportEndpoint, hsr]

/-- Relation export succeeds in tolerant mode or on complete data. -/
theorem exportRelation_ok (cfg : ExportConfig) (r : SrcRelation)
    (h : cfg.ignoreIncompleteModel = true ∨
      ∀ ep ∈ r.endpoints, ∀ us ∈ ep.unitsInScope, us.2.isSome = true) :
    exportRelation cfg r = .ok (pureExportRelation cfg r) := by
  rw [show exportRelation cfg r =
      (do
        let eps ← r.endpoints.mapM (exportEndpoint cfg)
        pure (⟨r.relationId, eps⟩ : ExpRelation)) from rfl,
    mapM_ok_of_forall (exportEndpoint cfg) (pureExportEndpoint cfg) r.endpoints
      (fun ep hep => exportEndpoint_ok cfg ep (by
        rcases h with h | h
        · exact Or.inl h
        · exact Or.inr (h ep hep)))]
  rfl

/-- The export succeeds and computes the pure projection whenever tolerant
mode is on or the source model is complete. -/
theorem exportModel_ok (cfg : ExportConfig) (s : SourceModel)
    (h : cfg.ignoreIncompleteModel = true ∨ s.complete = true) :
    exportModel cfg s = .ok (pureExport cfg s) := by
  have hm : ∀ m ∈ s.machines, exportMachine cfg m = .ok (pureExportMachine cfg m) := by
    intro m hm
    apply exportMachine_ok
    rcases h with h | h
    · exact Or.inl h
    · right
      simp only [SourceModel.complete, Bool.and_eq_true, List.all_eq_true] at h
      have := h.1.1 m hm
      simpa [Bool.and_eq_true] using this
  have hu : ∀ u ∈ s.units, exportUnit cfg u = .ok (pureExportUnit cfg u) := by
    intro u hu
    apply exportUnit_ok
    rcases h with h | h
    · exact Or.inl h
    · right
      simp only [SourceModel.complete, Bool.and_eq_true, List.all_eq_true] at h
      exact h.1.2 u hu
  have hr : ∀ r ∈ s.relations, exportRelation cfg r = .ok (pureExportRelation cfg r) := by
    intro r hr
    apply exportRelation_ok
    rcases h with h | h
    · exact Or.inl h
    · right
      simp only [SourceModel.complete, Bool.and_eq_true, List.all_eq_true] at h
      intro ep hep us hus
      exact h.2 r hr ep hep us hus
  rw [show exportModel cfg s =
      (do
        let machines ← s.machines.mapM (exportMachine cfg)
        let units ← s.units.mapM (exportUnit cfg)
        let relations ← s.relations.mapM (exportRelation cfg)
        pure (⟨machines, units, relations,
          if cfg.skipActions then [] else s.actions,
          if cfg.skipActions then [] else s.operations,
          if cfg.skipLinkLayerDevices then [] else s.linkLayerDevices,
          if cfg.skipIPAddresses then [] else s.ipAddresses,
          if cfg.skipSSHHostKeys then [] else s.sshHostKeys,
          if cfg.skipAnnotations then [] else s.annotations,
          if cfg.skipCloudImageMetadata then [] else s.cloudImageMetadata,
          if cfg.skipCredentials then [] else s.credentials,
          if cfg.skipSettings then [] else s.settings,
          if cfg.skipStatusHistory then [] else trimStatusHistory s.statusHistory,
          if cfg.skipApplicationOffers then [] else s.applicationOffers,
          if cfg.skipOfferConnections then [] else s.offerConnections⟩ : Snapshot)) from rfl,
    mapM_ok_of_forall _ _ _ hm, mapM_ok_of_forall _ _ _ hu, mapM_ok_of_forall _ _ _ hr]
  rfl

/-! ## Theorems: status history trimming (C1) -/

/-- C1: for every bounded-history entity and every input history (given
time-ordered, oldest first), the exported status history has exactly
min(L, 20) entries, and when the input timestamps are strictly increasing
the exported entries are strictly reverse-chronological (most recent
first). -/
theorem trimStatusHistory_spec (h : List StatusEntry) :
    (trimStatusHistory h).length = min h.length statusHistoryCap ∧
    ((h.map StatusEntry.timestamp).Pairwise (· < ·) →
      ((trimStatusHistory h).map StatusEntry.timestamp).Pairwise (· > ·)) := by
  constructor
  · simp [trimStatusHistory, Nat.min_comm]
  · intro hsorted
    have h1 : ((h.map StatusEntry.timestamp).reverse).Pairwise (· > ·) :=
      List.pairwise_reverse.mpr hsorted
    have h2 : (trimStatusHistory h).map StatusEntry.timestamp =
        ((h.map StatusEntry.timestamp).reverse).take statusHistoryCap := by
      simp [trimStatusHistory]
    rw [h2]
    exact h1.sublist (List.take_sublist _ _)

/-- A concrete 21-entry history, chronological oldest first. -/
def sampleHistory : List StatusEntry :=
  (List.range 21).map (fun i => ⟨"started", "", i⟩)

/-- Witness for C1 at a concrete input: 21 chronological entries trim to
exactly 20 entries in strictly reverse-chronological order. -/
theorem trimStatusHistory_spec_witness :
    (trimStatusHistory sampleHistory).length = min sampleHistory.length statusHistoryCap ∧
      ((trimStatusHistory sampleHistory).map StatusEntry.timestamp).Pairwise (· > ·) :=
  ⟨(trimStatusHistory_spec sampleHistory).1,
    (trimStatusHistory_spec sampleHistory).2 (by decide)⟩

/-! ## Theorems: export toggles (C2) -/

/-- The configuration flag that governs a category. -/
def skipFlag (cfg : ExportConfig) : ExportCategory → Bool
  | .actions => cfg.skipActions
  | .annotations => cfg.skipAnnotations
  | .cloudImageMetadata => cfg.skipCloudImageMetadata
  | .credentials => cfg.skipCredentials
  | .ipAddresses => cfg.skipIPAddresses
  | .settings => cfg.skipSettings
  | .sshHostKeys => cfg.skipSSHHostKeys
  | .statusHistory => cfg.skipStatusHistory
  | .linkLayerDevices => cfg.skipLinkLayerDevices
  | .unitAgentBinaries => cfg.skipUnitAgentBinaries
  | .machineAgentBinaries => cfg.skipMachineAgentBinaries
  | .relationData => cfg.skipRelationData
  | .instanceData => cfg.skipInstanceData
  | .applicationOffers => cfg.skipApplicationOffers
  | .offerConnections => cfg.skipOfferConnections

/-- How many entries of a category the source holds (what a full export of
that category produces). -/
def baseCount (s : SourceModel) : ExportCategory → Nat
  | .actions => s.actions.length + s.operations.length
  | .annotations => s.annotations.length
  | .cloudImageMetadata => s.cloudImageMetadata.length
  | .credentials => s.credentials.length
  | .ipAddresses => s.ipAddresses.length
  | .settings => s.settings.length
  | .sshHostKeys => s.sshHostKeys.length
  | .statusHistory => (trimStatusHistory s.statusHistory).length
  | .linkLayerDevices => s.linkLayerDevices.length
  | .unitAgentBinaries => (s.units.filter (fun u => u.agentTools.isSome)).length
  | .machineAgentBinaries => (s.machines.filter (fun m => m.agentTools.isSome)).length
  | .relationData =>
      (s.relations.map (fun r =>
        (r.endpoints.map (fun ep =>
          (ep.unitsInScope.filterMap (fun us => us.2.map (fun v => (us.1, v)))).length)).sum)).sum
  | .instanceData => (s.machines.filter (fun m => m.instanceData.isSome)).length
  | .applicationOffers => s.applicationOffers.length
  | .offerConnections => s.offerConnections.length

/-- Summing a constant-zero map gives zero. -/
theorem sum_map_fun_zero {β : Type} (l : List β) :
    (l.map (fun _ => (0 : Nat))).sum = 0 := by
  induction l <;> simp_all

/-- Every category count of the pure projection is zero when the category's
toggle is disabled and the source count otherwise. -/
theorem categoryCount_pureExport (cfg : ExportConfig) (s : SourceModel)
    (U : ExportCategory) :
    categoryCount (pureExport cfg s) U =
      if skipFlag cfg U then 0 else baseCount s U := by
  cases U with
  | actions =>
      cases hf : cfg.skipActions <;>
        simp [categoryCount, pureExport, baseCount, skipFlag, hf]
  | annotations =>
      cases hf : cfg.skipAnnotations <;>
        simp [categoryCount, pureExport, baseCount, skipFlag, hf]
  | cloudImageMetadata =>
      cases hf : cfg.skipCloudImageMetadata <;>
        simp [categoryCount, pureExport, baseCount, skipFlag, hf]
  | credentials =>
      cases hf : cfg.skipCredentials <;>
        simp [categoryCount, pureExport, baseCount, skipFlag, hf]
  | ipAddresses =>
      cases hf : cfg.skipIPAddresses <;>
        simp [categoryCount, pureExport, baseCount, skipFlag, hf]
  | settings =>
      cases hf : cfg.skipSettings <;>
        simp [categoryCount, pureExport, baseCount, skipFlag, hf]
  | sshHostKeys =>
      cases hf : cfg.skipSSHHostKeys <;>
        simp [categoryCount, pureExport, baseCount, skipFlag, hf]
  | statusHistory =>
      cases hf : cfg.skipStatusHistory <;>
        simp [categoryCount, pureExport, baseCount, skipFlag, hf]
  | linkLayerDevices =>
      cases hf : cfg.skipLinkLayerDevices <;>
        simp [categoryCount, pureExport, baseCount, skipFlag, hf]
  | unitAgentBinaries =>
      cases hf : cfg.skipUnitAgentBinaries <;>
        simp [categoryCount, pureExport, baseCount, skipFlag, hf,
          List.filter_map, pureExportUnit, Function.comp_def]
  | machineAgentBinaries =>
      cases hf : cfg.skipMachineAgentBinaries <;>
        simp [categoryCount, pureExport, baseCount, skipFlag, hf,
          List.filter_map, pureExportMachine, Function.comp_def]
  | relationData =>
      cases hf : cfg.skipRelationData <;>
        simp [categoryCount, pureExport, baseCount, skipFlag, hf,
          pureExportRelation, pureExportEndpoint, List.map_map,
          Function.comp_def, sum_map_fun_zero]
  | instanceData =>
      cases hf : cfg.skipInstanceData <;>
        simp [categoryCount, pureExport, baseCount, skipFlag, hf,
          List.filter_map, pureExportMachine, Function.comp_def]
  | applicationOffers =>
      cases hf : cfg.skipApplicationOffers <;>
        simp [categoryCount, pureExport, baseCount, skipFlag, hf]
  | offerConnections =>
      cases hf : cfg.skipOfferConnections <;>
        simp [categoryCount, pureExport, baseCount, skipFlag, hf]

/-- `disableOnly T` disables exactly the toggle of T. -/
theorem skipFlag_disableOnly (T U : ExportCategory) :
    skipFlag (disableOnly T) U = decide (U = T) := by
  cases T <;> cases U <;> rfl

/-- The all-enabled configuration disables no toggle. -/
theorem skipFlag_allEnabled (U : ExportCategory) :
    skipFlag allEnabledConfig U = false := by
  cases U <;> rfl

/-- C2: for every toggle T of the export configuration's closed set
(actions, annotations, cloud-image-metadata, credentials, IP addresses,
settings, SSH host keys, status history, link-layer devices, unit agent
binaries, machine agent binaries, relation scope data, instance data,
application offers, offer connections), exporting a complete source state
with only T disabled yields zero exported entries of category T, and for
every other category the exported entry count equals the count obtained
when exporting the identical source state with all toggles enabled. -/
theorem exportToggle_frame (T : ExportCategory) (s : SourceModel)
    (hc : s.complete = true) :
    ∃ snapAll snapT,
      exportModel allEnabledConfig s = Except.ok snapAll ∧
      exportModel (disableOnly T) s = Except.ok snapT ∧
      categoryCount snapT T = 0 ∧
      ∀ U, U ≠ T → categoryCount snapT U = categoryCount snapAll U := by
  refine ⟨pureExport allEnabledConfig s, pureExport (disableOnly T) s,
    exportModel_ok _ _ (Or.inr hc), exportModel_ok _ _ (Or.inr hc), ?_, ?_⟩
  · rw [categoryCount_pureExport, skipFlag_disableOnly]
    simp
  · intro U hUT
    rw [categoryCount_pureExport, categoryCount_pureExport,
      skipFlag_disableOnly, skipFlag_allEnabled]
    simp [hUT]

/-- A small complete source model touching every category. -/
def sampleSource : SourceModel :=
  ⟨[⟨"0", some "inst", some "2.9.1"⟩],
   [⟨"app/0", some "2.9.1"⟩],
   [⟨0, [⟨"wordpress", "db", [("wordpress/0", some [("name", "wordpress/0")])]⟩,
         ⟨"mysql", "db", [("mysql/0", some [("name", "mysql/0")])]⟩]⟩],
   ["action-1"], ["operation-1"], ["eth0"], ["10.0.0.1"], ["ssh-rsa"],
   [("machine-0", "annotated")], ["image-1"], ["credential-1"],
   [[("key", "value")]], [⟨"available", "", 1⟩], ["offer-1"], ["offer-conn-1"]⟩

/-- Witness for C2 at a concrete input: the sample source with only the
actions toggle disabled. -/
theorem exportToggle_frame_witness :
    ∃ snapAll snapT,
      exportModel allEnabledConfig sampleSource = Except.ok snapAll ∧
      exportModel (disableOnly .actions) sampleSource = Except.ok snapT ∧
      categoryCount snapT .actions = 0 ∧
      ∀ U, U ≠ ExportCategory.actions →
        categoryCount snapT U = categoryCount snapAll U :=
  exportToggle_frame .actions sampleSource (by decide)

/-! ## Theorems: tolerant mode (C3) -/

/-- C3: with the tolerate-incomplete flag set, export succeeds on every
source model — machines lacking instance data or agent tools, units
lacking agent tools and relations lacking scope data included — and the
corresponding exported field is nil exactly when the source record is
missing, while the entity itself is still exported. -/
theorem exportModel_tolerant_omits (s : SourceModel) :
    ∃ snap, exportModel tolerantConfig s = Except.ok snap ∧
      snap.machines.map ExpMachine.machineId = s.machines.map SrcMachine.machineId ∧
      snap.machines.map ExpMachine.instanceData = s.machines.map SrcMachine.instanceData ∧
      snap.machines.map ExpMachine.agentTools = s.machines.map SrcMachine.agentTools ∧
      snap.units.map ExpUnit.unitName = s.units.map SrcUnit.unitName ∧
      snap.units.map ExpUnit.agentTools = s.units.map SrcUnit.agentTools ∧
      snap.relations.map ExpRelation.relationId = s.relations.map SrcRelation.relationId := by
  refine ⟨pureExport tolerantConfig s, exportModel_ok _ _ (Or.inl rfl), ?_⟩
  simp [pureExport, pureExportMachine, pureExportUnit, pureExportRelation,
    tolerantConfig, allEnabledConfig, List.map_map, Function.comp]

/-! ## Theorems: relation endpoints (C4) -/

/-- C4: a relation between application A with one unit in scope and
application B with one unit in scope exports exactly 2 endpoints, each with
unit count 1 and per-unit settings keyed by the name of the unit that
entered scope on that side. -/
theorem exportRelation_unitCounts (rid : Nat) (A B epA epB uA uB : String)
    (sA sB : SettingsMap) :
    exportModel allEnabledConfig
        ⟨[], [], [⟨rid, [⟨A, epA, [(uA, some sA)]⟩, ⟨B, epB, [(uB, some sB)]⟩]⟩],
          [], [], [], [], [], [], [], [], [], [], [], []⟩ =
      Except.ok
        ⟨[], [], [⟨rid, [⟨A, epA, 1, [(uA, sA)]⟩, ⟨B, epB, 1, [(uB, sB)]⟩]⟩],
          [], [], [], [], [], [], [], [], [], [], [], []⟩ := by
  rfl

/-! ## Theorems: secrets (C5) -/

/-- A secret's typed value data: a keyed attribute map. -/
abbrev SecretData := List (String × String)

/-- Modelled from the spec: the state of one secret, whose production code
is absent from the excerpt.  "Revisions are immutable once created; update
operations always create a new revision rather than mutating in place,
except for pure-metadata updates which bump neither revision nor data."
`revisions` keeps every revision's data, oldest first; revision numbers
start at 1. -/
structure SecretState where
  rotateInterval : Int
  revisions : List SecretData
deriving DecidableEq, Repr

/-- Modelled from the spec: CreateSecret with data D starts at revision 1. -/
def createSecret (rotateInterval : Int) (data : SecretData) : SecretState :=
  ⟨rotateInterval, [data]⟩

/-- The latest revision number of a secret. -/
def latestRevision (s : SecretState) : Nat := s.revisions.length

/-- Modelled from the spec: GetSecretValue of a given revision. -/
def getSecretValue (s : SecretState) (revision : Nat) : Option SecretData :=
  s.revisions.get? (revision - 1)

/-- Modelled from the spec: UpdateSecret.  A negative rotate interval means
"leave the interval unchanged" (the tests pass -1 for it); an absent data
payload is a pure-metadata update bumping neither revision nor data; a
present data payload always appends a new immutable revision. -/
def updateSecret (s : SecretState) (rotateInterval : Int)
    (data : Option SecretData) : SecretState :=
  ⟨if 0 ≤ rotateInterval then rotateInterval else s.rotateInterval,
    match data with
    | none => s.revisions
    | some d => s.revisions ++ [d]⟩

/-- C5: for every secret created with data D, an update carrying no new
data and only a new rotate interval leaves the data equal to D and the
revision unchanged, while an update carrying new data D' increments the
revision and makes GetSecretValue of the latest revision return D'. -/
theorem secret_update_semantics (interval newInterval : Int)
    (D Dnew : SecretData) :
    latestRevision (updateSecret (createSecret interval D) newInterval none) =
        latestRevision (createSecret interval D) ∧
      getSecretValue (updateSecret (createSecret interval D) newInterval none)
          (latestRevision (updateSecret (createSecret interval D) newInterval none)) =
        some D ∧
      latestRevision (updateSecret (createSecret interval D) newInterval (some Dnew)) =
        latestRevision (createSecret interval D) + 1 ∧
      getSecretValue (updateSecret (createSecret interval D) newInterval (some Dnew))
          (latestRevision (updateSecret (createSecret interval D) newInterval (some Dnew))) =
        some Dnew := by
  refine ⟨rfl, rfl, rfl, ?_⟩
  simp [getSecretValue, updateSecret, createSecret, latestRevision]

/-! ## Theorems: volume-attachment plans (C9) -/

/-- The block-device-discovery record a host agent reports for an attached
volume. -/
structure BlockDeviceInfo where
  deviceName : String
  label : String
  uuid : String
  hardwareId : String
  wwn : String
  busAddress : String
  filesystemType : String
  mountPoint : String
  deviceLinks : List String
  inUse : Bool
  size : Nat
deriving DecidableEq, Repr

/-- The all-empty block-device record. -/
def emptyBlockDeviceInfo : BlockDeviceInfo :=
  ⟨"", "", "", "", "", "", "", "", [], false, 0⟩

/-- A source-side volume-attachment plan: the device-type tag, the
provider's device attributes, and the block-device-discovery result, which
"starts empty and is filled in later by a separate write path". -/
structure SrcAttachmentPlan where
  machineId : String
  deviceType : String
  deviceAttributes : List (String × String)
  blockDevice : Option BlockDeviceInfo
deriving DecidableEq, Repr

/-- An exported volume-attachment plan. -/
structure ExpAttachmentPlan where
  machineId : String
  deviceType : String
  deviceAttributes : List (String × String)
  blockDevice : BlockDeviceInfo
deriving DecidableEq, Repr

/-- Modelled from the spec: export of one volume-attachment plan, whose
production code is absent from the excerpt.  The discovery result "must
export as empty/absent when not yet populated, never synthesized"; when the
agent has written a (possibly partially filled) record, that record is
exported verbatim. -/
def exportAttachmentPlan (p : SrcAttachmentPlan) : ExpAttachmentPlan :=
  ⟨p.machineId, p.deviceType, p.deviceAttributes,
    match p.blockDevice with
    | none => emptyBlockDeviceInfo
    | some b => b⟩

/-- C9: when the host agent has not yet written the discovery result, every
field of the exported plan's block device is empty/zero; when the agent has
written a record with only some fields filled, the exported block device is
exactly that record — the written fields appear and the rest keep their
zero values, nothing is synthesized. -/
theorem exportAttachmentPlan_blockDevice (p : SrcAttachmentPlan) :
    (p.blockDevice = none →
      (exportAttachmentPlan p).blockDevice.deviceName = "" ∧
      (exportAttachmentPlan p).blockDevice.label = "" ∧
      (exportAttachmentPlan p).blockDevice.uuid = "" ∧
      (exportAttachmentPlan p).blockDevice.hardwareId = "" ∧
      (exportAttachmentPlan p).blockDevice.wwn = "" ∧
      (exportAttachmentPlan p).blockDevice.busAddress = "" ∧
      (exportAttachmentPlan p).blockDevice.filesystemType = "" ∧
      (exportAttachmentPlan p).blockDevice.mountPoint = "" ∧
      (exportAttachmentPlan p).blockDevice.deviceLinks = [] ∧
      (exportAttachmentPlan p).blockDevice.inUse = false ∧
      (exportAttachmentPlan p).blockDevice.size = 0) ∧
    (∀ b, p.blockDevice = some b → (exportAttachmentPlan p).blockDevice = b) := by
  constructor
  · intro h
    simp [exportAttachmentPlan, h, emptyBlockDeviceInfo]
  · intro b h
    simp [exportAttachmentPlan, h]

/-- Witness for C9 at concrete inputs: a local-disk plan with no discovery
result exports an all-empty block device, and an iSCSI plan whose agent
wrote only WWN, links and hardware id exports exactly that record. -/
theorem exportAttachmentPlan_blockDevice_witness :
    ((exportAttachmentPlan ⟨"0", "local", [], none⟩).blockDevice.deviceName = "" ∧
      (exportAttachmentPlan ⟨"0", "local", [], none⟩).blockDevice.label = "" ∧
      (exportAttachmentPlan ⟨"0", "local", [], none⟩).blockDevice.uuid = "" ∧
      (exportAttachmentPlan ⟨"0", "local", [], none⟩).blockDevice.hardwareId = "" ∧
      (exportAttachmentPlan ⟨"0", "local", [], none⟩).blockDevice.wwn = "" ∧
      (exportAttachmentPlan ⟨"0", "local", [], none⟩).blockDevice.busAddress = "" ∧
      (exportAttachmentPlan ⟨"0", "local", [], none⟩).blockDevice.filesystemType = "" ∧
      (exportAttachmentPlan ⟨"0", "local", [], none⟩).blockDevice.mountPoint = "" ∧
      (exportAttachmentPlan ⟨"0", "local", [], none⟩).blockDevice.deviceLinks = [] ∧
      (exportAttachmentPlan ⟨"0", "local", [], none⟩).blockDevice.inUse = false ∧
      (exportAttachmentPlan ⟨"0", "local", [], none⟩).blockDevice.size = 0) ∧
    (exportAttachmentPlan
        ⟨"0", "iscsi", [],
          some ⟨"", "", "", "test-id", "testWWN", "", "", "",
            ["/dev/sdb", "/dev/mapper/testDevice"], false, 0⟩⟩).blockDevice =
      ⟨"", "", "", "test-id", "testWWN", "", "", "",
        ["/dev/sdb", "/dev/mapper/testDevice"], false, 0⟩ :=
  ⟨(exportAttachmentPlan_blockDevice ⟨"0", "local", [], none⟩).1 rfl,
    (exportAttachmentPlan_blockDevice _).2 _ rfl⟩
